import Mathlib

/-!
Verification of the BOM-stripping core (`strip_bom/core.py`).

Bytes are modelled as `Nat` values below 256 in a `List Nat`; Python `str`
values are modelled as `List Char` (a sequence of Unicode code points); the
chunked byte source of `strip_bom_stream` is modelled as the full byte list
with a read cursor, reads returning full chunks until end of data, which is
what the ByteSource contract guarantees.
-/

namespace StripBom

/-- UTF-8 BOM bytes 0xEF 0xBB 0xBF (`UTF8_BOM` in core.py). -/
def UTF8_BOM : List Nat := [0xEF, 0xBB, 0xBF]

/-- UTF-8 BOM character U+FEFF (`UTF8_BOM_CHAR` in core.py). -/
def UTF8_BOM_CHAR : Char := Char.ofNat 0xFEFF

/-- A UTF-8 continuation byte: 0x80 .. 0xBF. -/
def contByte (b : Nat) : Bool := decide (0x80 ≤ b) && decide (b ≤ 0xBF)

/-- Admissible ranges for the continuation bytes introduced by a lead byte,
following the RFC 3629 well-formedness table that CPython's strict UTF-8
decoder enforces: `none` for an invalid lead byte, otherwise the list of
(low, high) bounds the following continuation bytes must satisfy. The
special first-continuation ranges exclude overlong forms (0xE0, 0xF0),
surrogates (0xED) and code points above U+10FFFF (0xF4). -/
def leadRanges (b0 : Nat) : Option (List (Nat × Nat)) :=
  if b0 ≤ 0x7F then some []
  else if 0xC2 ≤ b0 ∧ b0 ≤ 0xDF then some [(0x80, 0xBF)]
  else if b0 = 0xE0 then some [(0xA0, 0xBF), (0x80, 0xBF)]
  else if b0 = 0xED then some [(0x80, 0x9F), (0x80, 0xBF)]
  else if 0xE1 ≤ b0 ∧ b0 ≤ 0xEF then some [(0x80, 0xBF), (0x80, 0xBF)]
  else if b0 = 0xF0 then some [(0x90, 0xBF), (0x80, 0xBF), (0x80, 0xBF)]
  else if b0 = 0xF4 then some [(0x80, 0x8F), (0x80, 0xBF), (0x80, 0xBF)]
  else if 0xF1 ≤ b0 ∧ b0 ≤ 0xF3 then some [(0x80, 0xBF), (0x80, 0xBF), (0x80, 0xBF)]
  else none

/-- One-pass acceptance of the UTF-8 well-formedness table: the first
argument is the list of pending continuation-byte ranges of the current
multi-byte sequence (empty between code points). A byte sequence ending in
the middle of a multi-byte sequence is rejected (truncation). -/
def utf8Run : List (Nat × Nat) → List Nat → Bool
  | [], [] => true
  | [], b0 :: rest =>
    match leadRanges b0 with
    | some rs => utf8Run rs rest
    | none => false
  | _ :: _, [] => false
  | (lo, hi) :: rs, b1 :: rest =>
    (decide (lo ≤ b1) && decide (b1 ≤ hi)) && utf8Run rs rest

/-- Strict UTF-8 well-formedness of a byte sequence, modelling `_is_utf8`
in core.py, i.e. CPython's `bytes.decode("utf-8", errors="strict")`
succeeding: no overlong forms, no surrogate code points, no code points
above U+10FFFF, no truncated or invalid multi-byte sequences. -/
def isUtf8 (byte_array : List Nat) : Bool := utf8Run [] byte_array

/-- `strip_bom` in core.py: remove one leading U+FEFF character if present,
otherwise return the string unchanged. -/
def strip_bom (string : List Char) : List Char :=
  if string.head? = some UTF8_BOM_CHAR then string.tail else string

/-- `strip_bom_buffer` in core.py: strip the 3-byte BOM when the buffer is at
least 3 bytes long, starts with the BOM bytes, and the whole buffer is valid
UTF-8; otherwise return the buffer unchanged. -/
def strip_bom_buffer (byte_array : List Nat) : List Nat :=
  if UTF8_BOM.length ≤ byte_array.length ∧ byte_array.take UTF8_BOM.length = UTF8_BOM then
    if isUtf8 byte_array then byte_array.drop UTF8_BOM.length else byte_array
  else
    byte_array

/-- The `while True` loop of `_strip_bom_stream_generator`: read `chunkSize`
bytes at a time from the remaining source bytes, stop on an empty read,
yield every non-empty read verbatim. -/
def streamRest (chunkSize : Nat) (rest : List Nat) : List (List Nat) :=
  if _h : rest.take chunkSize = [] then
    []
  else
    rest.take chunkSize :: streamRest chunkSize (rest.drop chunkSize)
termination_by rest.length
decreasing_by
  rw [List.take_eq_nil_iff] at _h
  push_neg at _h
  have hlen : rest.length ≠ 0 := by
    intro hz
    exact _h.2 (List.eq_nil_of_length_eq_zero hz)
  simp only [List.length_drop]
  omega

/-- `_strip_bom_stream_generator` in core.py over a source holding exactly
`source` bytes: a first read of `max(len(UTF8_BOM), chunk_size)` bytes, no
chunks at all when it is empty, otherwise the first chunk is pushed through
`strip_bom_buffer` and emitted when non-empty, and the rest of the source is
emitted in verbatim reads of `chunkSize` bytes. -/
def strip_bom_stream (chunkSize : Nat) (source : List Nat) : List (List Nat) :=
  let minReadSize := max UTF8_BOM.length chunkSize
  let firstChunk := source.take minReadSize
  if firstChunk = [] then
    []
  else
    let processedFirst := strip_bom_buffer firstChunk
    (if processedFirst = [] then [] else [processedFirst])
      ++ streamRest chunkSize (source.drop minReadSize)

/-- A dynamically-typed Python value, as far as the runtime type checks of
core.py distinguish them: strings, bytes, bytearrays, file-like objects
(anything with a `read` capability, carried here as the bytes it serves),
and other values. -/
inductive PyVal where
  | str (s : List Char)
  | bytes (b : List Nat)
  | bytearray (b : List Nat)
  | file (data : List Nat)
  | intVal (n : Int)
  | noneVal
deriving DecidableEq

/-- `isinstance(x, str)`. -/
def isStr : PyVal → Bool
  | .str _ => true
  | _ => false

/-- `isinstance(x, (bytes, bytearray))`. -/
def isBytesLike : PyVal → Bool
  | .bytes _ => true
  | .bytearray _ => true
  | _ => false

/-- `hasattr(x, "read")`: only the file-like value has the read capability. -/
def hasRead : PyVal → Bool
  | .file _ => true
  | _ => false

/-- Whether a call returned normally (`Except.ok`) rather than raising. -/
def isOk : Except String α → Bool
  | Except.ok _ => true
  | Except.error _ => false

/-- `strip_bom` with its runtime type check: raises `TypeError` unless the
argument is a string. -/
def strip_bom_py : PyVal → Except String (List Char)
  | .str s => Except.ok (strip_bom s)
  | _ => Except.error "TypeError"

/-- `strip_bom_buffer` with its runtime type check: raises `TypeError` unless
the argument is bytes or bytearray (a bytearray is converted to bytes, which
leaves the byte contents unchanged). -/
def strip_bom_buffer_py : PyVal → Except String (List Nat)
  | .bytes b => Except.ok (strip_bom_buffer b)
  | .bytearray b => Except.ok (strip_bom_buffer b)
  | _ => Except.error "TypeError"

/-- `strip_bom_stream` with its runtime capability check: raises `TypeError`
unless the argument has a `read` capability. -/
def strip_bom_stream_py (chunkSize : Nat) : PyVal → Except String (List (List Nat))
  | .file data => Except.ok (strip_bom_stream chunkSize data)
  | _ => Except.error "TypeError"

example : strip_bom_buffer [0xEF, 0xBB, 0xBF, 0x75] = [0x75] := by decide
example : strip_bom_buffer [0xEF, 0xBB, 0xBF, 0xFF, 0xFE] = [0xEF, 0xBB, 0xBF, 0xFF, 0xFE] := by
  decide
example : strip_bom_buffer [0xEF, 0xBB, 0xBF] = [] := by decide
example : strip_bom_buffer [0xEF, 0xBB] = [0xEF, 0xBB] := by decide
example : strip_bom (UTF8_BOM_CHAR :: ['u']) = ['u'] := by decide
example : isUtf8 [0xEF, 0xBB, 0xBF, 0xC3, 0xA9] = true := by decide
example : isUtf8 [0xEF, 0xBB, 0xBF, 0xC3] = false := by decide
example : isUtf8 [] = true := by decide
example : isUtf8 [0xC0, 0x80] = false := by decide
example : isUtf8 [0xE0, 0x9F, 0x80] = false := by decide
example : isUtf8 [0xE0, 0xA0, 0x80] = true := by decide
example : isUtf8 [0xED, 0x9F, 0xBF] = true := by decide
example : isUtf8 [0xED, 0xA0, 0x80] = false := by decide
example : isUtf8 [0xF0, 0x8F, 0xBF, 0xBF] = false := by decide
example : isUtf8 [0xF0, 0x90, 0x80, 0x80] = true := by decide
example : isUtf8 [0xF4, 0x8F, 0xBF, 0xBF] = true := by decide
example : isUtf8 [0xF4, 0x90, 0x80, 0x80] = false := by decide
example : isUtf8 [0xF5, 0x80, 0x80, 0x80] = false := by decide
example : isUtf8 [0x80] = false := by decide
example : isUtf8 [0xFF, 0xFE] = false := by decide
example : isUtf8 [0xC3, 0xA9, 0x61] = true := by decide
example : strip_bom_stream 4 [0xEF, 0xBB, 0xBF, 0xC3, 0xA9]
    = [[0xEF, 0xBB, 0xBF, 0xC3], [0xA9]] := by
  simp +decide [strip_bom_stream, streamRest, strip_bom_buffer, UTF8_BOM]
example : strip_bom_stream 8 [0xEF, 0xBB, 0xBF, 0xC3, 0xA9] = [[0xC3, 0xA9]] := by
  simp +decide [strip_bom_stream, streamRest, strip_bom_buffer, UTF8_BOM]
example : strip_bom_stream 0 [0xEF, 0xBB, 0xBF, 0x61, 0x62] = [] := by
  simp +decide [strip_bom_stream, streamRest, strip_bom_buffer, UTF8_BOM]
example : strip_bom_stream 0 [0x61, 0x62, 0x63, 0x64] = [[0x61, 0x62, 0x63]] := by
  simp +decide [strip_bom_stream, streamRest, strip_bom_buffer, UTF8_BOM]

/-! Helper lemmas. -/

/-- A buffer whose first three bytes are the BOM has at least three bytes. -/
lemma three_le_length_of_take (b : List Nat) (h : b.take 3 = UTF8_BOM) :
    3 ≤ b.length := by
  have hl := congrArg List.length h
  simp [UTF8_BOM] at hl
  omega

/-- Closed form of `strip_bom_buffer`: the length guard of the source is
implied by the prefix guard. -/
lemma strip_bom_buffer_eq (b : List Nat) :
    strip_bom_buffer b
      = if b.take 3 = UTF8_BOM ∧ isUtf8 b = true then b.drop 3 else b := by
  have hlen : UTF8_BOM.length = 3 := rfl
  unfold strip_bom_buffer
  rw [hlen]
  by_cases hp : b.take 3 = UTF8_BOM
  · have h3 : 3 ≤ b.length := three_le_length_of_take b hp
    by_cases hu : isUtf8 b = true
    · rw [if_pos ⟨h3, hp⟩, if_pos hu, if_pos ⟨hp, hu⟩]
    · rw [if_pos ⟨h3, hp⟩, if_neg hu, if_neg]
      intro hq
      exact hu hq.2
  · rw [if_neg, if_neg]
    · intro hq
      exact hp hq.1
    · intro hq
      exact hp hq.2

/-- The three BOM bytes decode as U+FEFF, so validity of a BOM-prefixed
buffer is validity of the remainder. -/
lemma isUtf8_bom_append (t : List Nat) :
    isUtf8 (0xEF :: 0xBB :: 0xBF :: t) = isUtf8 t := by
  simp +decide [isUtf8, utf8Run, leadRanges]

/-- Splitting the first six elements at position three. -/
lemma take_six_split (l : List Nat) :
    l.take 6 = l.take 3 ++ (l.drop 3).take 3 := by
  rw [List.take_drop]
  conv_lhs => rw [← List.take_append_drop 3 (l.take 6)]
  rw [List.take_take]
  norm_num

/-- Reads of the subsequent-chunk loop, concatenated, give back the source
remainder whenever the chunk size is positive. -/
lemma streamRest_join (cs : Nat) (hcs : 0 < cs) (r : List Nat) :
    (streamRest cs r).flatten = r := by
  rw [streamRest]
  by_cases h : r.take cs = []
  · rcases List.take_eq_nil_iff.mp h with h1 | h1
    · omega
    · simp [h, h1]
  · rw [dif_neg h, List.flatten_cons, streamRest_join cs hcs (r.drop cs)]
    exact List.take_append_drop cs r
termination_by r.length
decreasing_by
  rw [List.take_eq_nil_iff] at h
  push_neg at h
  have hlen : r.length ≠ 0 := fun hz => h.2 (List.eq_nil_of_length_eq_zero hz)
  simp only [List.length_drop]
  omega

/-- Every chunk produced by the subsequent-chunk loop is non-empty. -/
lemma streamRest_mem_ne_nil (cs : Nat) (r c : List Nat)
    (hc : c ∈ streamRest cs r) : c ≠ [] := by
  rw [streamRest] at hc
  by_cases h : r.take cs = []
  · simp [h] at hc
  · rw [dif_neg h] at hc
    rcases List.mem_cons.mp hc with hc | hc
    · exact hc ▸ h
    · exact streamRest_mem_ne_nil cs (r.drop cs) c hc
termination_by r.length
decreasing_by
  rw [List.take_eq_nil_iff] at h
  push_neg at h
  have hlen : r.length ≠ 0 := fun hz => h.2 (List.eq_nil_of_length_eq_zero hz)
  simp only [List.length_drop]
  omega

/-- A read of zero bytes ends the loop at once: no further chunks. -/
lemma streamRest_zero (r : List Nat) : streamRest 0 r = [] := by
  rw [streamRest]
  simp

/-- The loop yields nothing on an exhausted source. -/
lemma streamRest_nil (cs : Nat) : streamRest cs [] = [] := by
  rw [streamRest]
  simp

/-- Stripping never lengthens a buffer. -/
lemma strip_bom_buffer_length_le (b : List Nat) :
    (strip_bom_buffer b).length ≤ b.length := by
  rw [strip_bom_buffer_eq]
  by_cases hc : b.take 3 = UTF8_BOM ∧ isUtf8 b = true
  · rw [if_pos hc]
    simp only [List.length_drop]
    omega
  · rw [if_neg hc]

/-! Claim theorems. -/

/-- Claim C1: `strip_bom_buffer` removes the leading three BOM bytes exactly
when the buffer has at least three bytes, its first three bytes are the BOM,
and the whole buffer (BOM included) is valid UTF-8; in every other case —
BOM prefix followed by invalid UTF-8, a 1- or 2-byte partial BOM, input
shorter than 3 bytes — the input is returned unchanged. -/
theorem strip_bom_buffer_gate (b : List Nat) :
    strip_bom_buffer b
      = (if 3 ≤ b.length ∧ b.take 3 = UTF8_BOM ∧ isUtf8 b = true then b.drop 3 else b)
    ∧ (strip_bom_buffer b ≠ b ↔ b.take 3 = UTF8_BOM ∧ isUtf8 b = true) := by
  rw [strip_bom_buffer_eq]
  by_cases hc : b.take 3 = UTF8_BOM ∧ isUtf8 b = true
  · have h3 : 3 ≤ b.length := three_le_length_of_take b hc.1
    rw [if_pos hc, if_pos ⟨h3, hc⟩]
    refine ⟨rfl, fun _ => hc, fun _ heq => ?_⟩
    have hlen := congrArg List.length heq
    simp only [List.length_drop] at hlen
    omega
  · rw [if_neg hc, if_neg (fun hq => hc ⟨hq.2.1, hq.2.2⟩)]
    exact ⟨rfl, fun hne => absurd rfl hne, fun hq => absurd hq hc⟩

/-- Witness for C1 at concrete inputs: a valid BOM-prefixed buffer is
stripped, a BOM-prefixed buffer that is invalid UTF-8 is unchanged. -/
theorem strip_bom_buffer_gate_witness :
    strip_bom_buffer [0xEF, 0xBB, 0xBF, 0x61] = [0x61]
    ∧ strip_bom_buffer [0xEF, 0xBB, 0xBF, 0xFF, 0xFE] = [0xEF, 0xBB, 0xBF, 0xFF, 0xFE] :=
  ⟨by rw [(strip_bom_buffer_gate [0xEF, 0xBB, 0xBF, 0x61]).1]; decide,
   by rw [(strip_bom_buffer_gate [0xEF, 0xBB, 0xBF, 0xFF, 0xFE]).1]; decide⟩

/-- Claim C4: `strip_bom` removes a single leading U+FEFF character when
present, giving a result one character shorter; otherwise the input is
returned unchanged (including the empty string). -/
theorem strip_bom_spec (s : List Char) :
    strip_bom s = (if s.head? = some UTF8_BOM_CHAR then s.tail else s)
    ∧ (s.head? = some UTF8_BOM_CHAR → (strip_bom s).length + 1 = s.length)
    ∧ (s.head? ≠ some UTF8_BOM_CHAR → strip_bom s = s) := by
  refine ⟨rfl, ?_, ?_⟩
  · intro hh
    cases s with
    | nil => simp at hh
    | cons c t =>
      simp only [List.head?_cons, Option.some.injEq] at hh
      simp [strip_bom, hh]
  · intro hh
    simp [strip_bom, hh]

/-- Witness for C4 at concrete inputs: a BOM-led two-character string loses
its first character, a plain string is unchanged. -/
theorem strip_bom_spec_witness :
    strip_bom [UTF8_BOM_CHAR, 'u'] = ['u']
    ∧ (strip_bom [UTF8_BOM_CHAR, 'u']).length + 1 = 2
    ∧ strip_bom ['u'] = ['u'] :=
  ⟨by rw [(strip_bom_spec [UTF8_BOM_CHAR, 'u']).1]; decide,
   (strip_bom_spec [UTF8_BOM_CHAR, 'u']).2.1 (by decide),
   (strip_bom_spec ['u']).2.2 (by decide)⟩

/-- Claim C5: `strip_bom_buffer` never alters bytes after position 2 — the
result is either the whole input or exactly its suffix from byte 3 — and a
BOM byte sequence at any offset greater than 0 is never removed: whenever
the first three bytes are not the BOM, the buffer is returned unchanged. -/
theorem strip_bom_buffer_frame (b : List Nat) :
    (strip_bom_buffer b = b ∨ strip_bom_buffer b = b.drop 3)
    ∧ (b.take 3 ≠ UTF8_BOM → strip_bom_buffer b = b) := by
  rw [strip_bom_buffer_eq]
  by_cases hc : b.take 3 = UTF8_BOM ∧ isUtf8 b = true
  · rw [if_pos hc]
    exact ⟨Or.inr rfl, fun hn => absurd hc.1 hn⟩
  · rw [if_neg hc]
    exact ⟨Or.inl rfl, fun _ => rfl⟩

/-- Witness for C5: a buffer with the BOM bytes at offset 1 only (the
spec's `hello`-style example, shortened) is returned unchanged. -/
theorem strip_bom_buffer_frame_witness :
    strip_bom_buffer [0x68, 0xEF, 0xBB, 0xBF] = [0x68, 0xEF, 0xBB, 0xBF] :=
  (strip_bom_buffer_frame [0x68, 0xEF, 0xBB, 0xBF]).2 (by decide)

/-- Counterexample to C2 as stated: on a string of two U+FEFF characters
followed by `x`, and on a buffer of two BOM byte sequences, applying the
strip twice removes two BOMs while applying it once removes one, so neither
operation is idempotent on such inputs. -/
theorem strip_idempotent_cex :
    ¬ (strip_bom (strip_bom [UTF8_BOM_CHAR, UTF8_BOM_CHAR, 'x'])
        = strip_bom [UTF8_BOM_CHAR, UTF8_BOM_CHAR, 'x'])
    ∧ ¬ (strip_bom_buffer (strip_bom_buffer [0xEF, 0xBB, 0xBF, 0xEF, 0xBB, 0xBF])
        = strip_bom_buffer [0xEF, 0xBB, 0xBF, 0xEF, 0xBB, 0xBF]) := by
  exact ⟨by decide, by decide⟩

/-- Claim C2 amended: both stripping operations are idempotent on every
input that does not begin with two BOMs — `strip_bom` on every string whose
first two characters are not both U+FEFF, `strip_bom_buffer` on every
buffer whose first six bytes are not two BOM byte sequences. -/
theorem strip_idempotent_amended :
    (∀ s : List Char, s.take 2 ≠ [UTF8_BOM_CHAR, UTF8_BOM_CHAR] →
      strip_bom (strip_bom s) = strip_bom s)
    ∧ (∀ b : List Nat, b.take 6 ≠ UTF8_BOM ++ UTF8_BOM →
      strip_bom_buffer (strip_bom_buffer b) = strip_bom_buffer b) := by
  constructor
  · intro s hs
    match s with
    | [] => rfl
    | c :: t =>
      by_cases hc : c = UTF8_BOM_CHAR
      · subst hc
        have h1 : strip_bom (UTF8_BOM_CHAR :: t) = t := by simp [strip_bom]
        rw [h1]
        have ht : t.head? ≠ some UTF8_BOM_CHAR := by
          intro hh
          cases t with
          | nil => simp at hh
          | cons c2 t2 =>
            simp only [List.head?_cons, Option.some.injEq] at hh
            subst hh
            exact hs rfl
        simp [strip_bom, ht]
      · simp [strip_bom, hc]
  · intro b hb
    by_cases hc : b.take 3 = UTF8_BOM ∧ isUtf8 b = true
    · have h1 : strip_bom_buffer b = b.drop 3 := by rw [strip_bom_buffer_eq, if_pos hc]
      rw [h1, strip_bom_buffer_eq, if_neg]
      intro hq
      apply hb
      rw [take_six_split, hc.1, hq.1]
    · have h1 : strip_bom_buffer b = b := by rw [strip_bom_buffer_eq, if_neg hc]
      rw [h1, h1]

/-- Witness for the amended C2 at concrete inputs: a BOM-free string and a
single-BOM buffer are both fixed points after one strip. -/
theorem strip_idempotent_amended_witness :
    strip_bom (strip_bom ['x']) = strip_bom ['x']
    ∧ strip_bom_buffer (strip_bom_buffer [0xEF, 0xBB, 0xBF, 0x61])
        = strip_bom_buffer [0xEF, 0xBB, 0xBF, 0x61] :=
  ⟨strip_idempotent_amended.1 ['x'] (by decide),
   strip_idempotent_amended.2 [0xEF, 0xBB, 0xBF, 0x61] (by decide)⟩

/-- Claim C3: when the chunk size is at least 3 and large enough that the
whole source fits in the probed first read, the concatenation of all chunks
of the stream variant equals the buffer variant's output. -/
theorem stream_buffer_equiv (cs : Nat) (b : List Nat)
    (h3 : 3 ≤ cs) (hb : b.length ≤ cs) :
    (strip_bom_stream cs b).flatten = strip_bom_buffer b := by
  have hmax : max UTF8_BOM.length cs = cs := by
    have : UTF8_BOM.length = 3 := rfl
    rw [this]
    omega
  simp only [strip_bom_stream, hmax, List.take_of_length_le hb,
    List.drop_eq_nil_of_le hb, streamRest_nil, List.append_nil]
  by_cases hbnil : b = []
  · subst hbnil
    simp
    decide
  · rw [if_neg hbnil]
    by_cases hsb : strip_bom_buffer b = []
    · rw [if_pos hsb, hsb]
      rfl
    · rw [if_neg hsb]
      simp

/-- Witness for C3: stream and buffer agree on a four-byte BOM-led source
with chunk size 8. -/
theorem stream_buffer_equiv_witness :
    (strip_bom_stream 8 [0xEF, 0xBB, 0xBF, 0x61]).flatten
      = strip_bom_buffer [0xEF, 0xBB, 0xBF, 0x61] :=
  stream_buffer_equiv 8 [0xEF, 0xBB, 0xBF, 0x61] (by decide) (by decide)

/-- Claim C6: the stream variant's first read has size `max(3, chunk_size)`;
an empty first read produces no chunks at all; otherwise the first read is
pushed through `strip_bom_buffer` and emitted only when non-empty, and the
subsequent reads of `chunk_size` bytes are emitted verbatim (for a positive
chunk size their concatenation is exactly the remaining source bytes). -/
theorem stream_behavior (cs : Nat) (b : List Nat) :
    (b = [] → strip_bom_stream cs b = [])
    ∧ strip_bom_stream cs b
        = (if b = [] then []
           else (if strip_bom_buffer (b.take (max 3 cs)) = [] then []
                 else [strip_bom_buffer (b.take (max 3 cs))])
              ++ streamRest cs (b.drop (max 3 cs)))
    ∧ (0 < cs → ∀ r : List Nat, (streamRest cs r).flatten = r) := by
  have hbom : UTF8_BOM.length = 3 := rfl
  refine ⟨?_, ?_, fun hcs r => streamRest_join cs hcs r⟩
  · intro hbnil
    subst hbnil
    simp [strip_bom_stream]
  · by_cases hbnil : b = []
    · subst hbnil
      simp [strip_bom_stream]
    · have htake : b.take (max UTF8_BOM.length cs) ≠ [] := by
        intro h
        rw [List.take_eq_nil_iff] at h
        rcases h with h | h
        · rw [hbom] at h
          omega
        · exact hbnil h
      simp only [strip_bom_stream, hbom] at htake ⊢
      rw [if_neg htake, if_neg hbnil]

/-- Witness for C6 at concrete inputs: an empty source yields no chunks,
and chunk-size-5 reads of a six-byte remainder concatenate back to it. -/
theorem stream_behavior_witness :
    strip_bom_stream 5 [] = []
    ∧ (streamRest 5 [0x61, 0x62, 0x63, 0x64, 0x65, 0x66]).flatten
        = [0x61, 0x62, 0x63, 0x64, 0x65, 0x66] :=
  ⟨(stream_behavior 5 []).1 rfl,
   (stream_behavior 5 []).2.2 (by decide) [0x61, 0x62, 0x63, 0x64, 0x65, 0x66]⟩

/-- Claim C7: the runtime type checks — `strip_bom` returns normally exactly
on strings, `strip_bom_buffer` exactly on bytes/bytearray values,
`strip_bom_stream` exactly on values with a read capability — while a
BOM-prefixed buffer that is invalid UTF-8 never raises: the original bytes
come back as normal control flow. -/
theorem type_errors (cs : Nat) (v : PyVal) :
    isOk (strip_bom_py v) = isStr v
    ∧ isOk (strip_bom_buffer_py v) = isBytesLike v
    ∧ isOk (strip_bom_stream_py cs v) = hasRead v
    ∧ (∀ b : List Nat, b.take 3 = UTF8_BOM → isUtf8 b = false →
        strip_bom_buffer_py (PyVal.bytes b) = Except.ok b) := by
  refine ⟨?_, ?_, ?_, ?_⟩
  · cases v <;> rfl
  · cases v <;> rfl
  · cases v <;> rfl
  · intro b hp hu
    simp [strip_bom_buffer_py, strip_bom_buffer_eq, hu]

/-- Witness for C7: an integer argument is rejected by `strip_bom`, and a
BOM-prefixed invalid-UTF-8 buffer returns normally, unchanged. -/
theorem type_errors_witness :
    isOk (strip_bom_py (PyVal.intVal 3)) = false
    ∧ strip_bom_buffer_py (PyVal.bytes [0xEF, 0xBB, 0xBF, 0xFF])
        = Except.ok [0xEF, 0xBB, 0xBF, 0xFF] :=
  ⟨(type_errors 8 (PyVal.intVal 3)).1,
   (type_errors 8 (PyVal.intVal 3)).2.2.2 [0xEF, 0xBB, 0xBF, 0xFF] (by decide) (by decide)⟩

/-- Claim C8: there is a byte source that is valid UTF-8 as a whole and
begins with the BOM, and a chunk size of at least 3, for which the stream
variant leaves the BOM in the output even though the buffer variant strips
it: a multi-byte character split across the first-chunk boundary makes the
first chunk alone invalid UTF-8. -/
theorem stream_bom_survives :
    ∃ (b : List Nat) (cs : Nat), 3 ≤ cs ∧ isUtf8 b = true ∧ b.take 3 = UTF8_BOM
      ∧ strip_bom_buffer b = b.drop 3
      ∧ (strip_bom_stream cs b).flatten = b := by
  refine ⟨[0xEF, 0xBB, 0xBF, 0xC3, 0xA9], 4, by decide, by decide, by decide, by decide, ?_⟩
  simp +decide [strip_bom_stream, streamRest, strip_bom_buffer, UTF8_BOM]

/-- Claim C9: every chunk the stream variant yields is non-empty, for every
source and chunk size. -/
theorem stream_chunks_nonempty (cs : Nat) (b : List Nat) (c : List Nat)
    (hc : c ∈ strip_bom_stream cs b) : c ≠ [] := by
  simp only [strip_bom_stream] at hc
  by_cases hfc : b.take (max UTF8_BOM.length cs) = []
  · rw [if_pos hfc] at hc
    simp at hc
  · rw [if_neg hfc] at hc
    rcases List.mem_append.mp hc with hc | hc
    · by_cases hp : strip_bom_buffer (b.take (max UTF8_BOM.length cs)) = []
      · rw [if_pos hp] at hc
        simp at hc
      · rw [if_neg hp] at hc
        rw [List.mem_singleton] at hc
        exact hc ▸ hp
    · exact streamRest_mem_ne_nil cs _ c hc

/-- Witness for C9: the single chunk produced from a one-byte source is
non-empty. -/
theorem stream_chunks_nonempty_witness : ([0x61] : List Nat) ≠ [] :=
  stream_chunks_nonempty 8 [0x61] [0x61]
    (by simp +decide [strip_bom_stream, streamRest, strip_bom_buffer, UTF8_BOM])

/-- Claim C10: with chunk size 0 only the 3-byte probe is ever read — the
output is the BOM-stripped first three bytes of the source when that is
non-empty and nothing otherwise, total output length at most 3, every chunk
at most 3 bytes — and the rest of the source is never produced because the
loop's zero-byte read ends the sequence at once. -/
theorem stream_zero_chunk (b : List Nat) :
    strip_bom_stream 0 b
      = (if strip_bom_buffer (b.take 3) = [] then [] else [strip_bom_buffer (b.take 3)])
    ∧ (strip_bom_stream 0 b).flatten.length ≤ 3
    ∧ (∀ c, c ∈ strip_bom_stream 0 b → c.length ≤ 3) := by
  have hlen3 : (strip_bom_buffer (b.take 3)).length ≤ 3 := by
    have h1 := strip_bom_buffer_length_le (b.take 3)
    have h2 : (b.take 3).length ≤ 3 := by
      rw [List.length_take]
      omega
    omega
  have h1 : strip_bom_stream 0 b
      = (if strip_bom_buffer (b.take 3) = [] then [] else [strip_bom_buffer (b.take 3)]) := by
    by_cases hbnil : b = []
    · subst hbnil
      simp [strip_bom_stream]
      decide
    · have htake : b.take (max UTF8_BOM.length 0) ≠ [] := by
        intro h
        rw [List.take_eq_nil_iff] at h
        rcases h with h | h
        · exact absurd h (by decide)
        · exact hbnil h
      have hm : max UTF8_BOM.length 0 = 3 := rfl
      simp only [strip_bom_stream, hm] at htake ⊢
      rw [if_neg htake, streamRest_zero, List.append_nil]
  refine ⟨h1, ?_, ?_⟩
  · rw [h1]
    by_cases hp : strip_bom_buffer (b.take 3) = []
    · simp [hp]
    · rw [if_neg hp]
      simpa using hlen3
  · intro c hcm
    rw [h1] at hcm
    by_cases hp : strip_bom_buffer (b.take 3) = []
    · rw [if_pos hp] at hcm
      simp at hcm
    · rw [if_neg hp, List.mem_singleton] at hcm
      rw [hcm]
      exact hlen3

/-- Witness for C10: a four-byte BOM-free source with chunk size 0 produces
exactly its first three bytes and nothing more. -/
theorem stream_zero_chunk_witness :
    strip_bom_stream 0 [0x61, 0x62, 0x63, 0x64] = [[0x61, 0x62, 0x63]]
    ∧ ([0x61, 0x62, 0x63] : List Nat).length ≤ 3 :=
  ⟨by rw [(stream_zero_chunk [0x61, 0x62, 0x63, 0x64]).1]; decide,
   (stream_zero_chunk [0x61, 0x62, 0x63, 0x64]).2.2 [0x61, 0x62, 0x63]
     (by rw [(stream_zero_chunk [0x61, 0x62, 0x63, 0x64]).1]; decide)⟩

end StripBom
